import Mathlib

/-!
# Chat widget (`static/script.js`)

A shallow embedding of the browser script: the message formatter
`formatMessageContent`, the element builder `createMessageElement`, and the two
asynchronous flows `loadWelcomeMessage` and `sendMessage`.

Modelling choices, each stated where it is made:

* a JavaScript string is a Lean `String`; the two regular expressions of the formatter only
  distinguish `*`, the four line terminators and every other character, so a surrogate pair
  behaves like any other two ordinary code units;
* the page is a record of the DOM properties the script reads or writes;
* an `async` function is a state transformer that is given the outcome of its `fetch`;
  an awaited timer advances a timer clock by the requested number of milliseconds;
* a thrown exception is returned next to the page reached when it was thrown.
-/

namespace ChatWidget

/-! ## The formatter -/

/-- The characters the regular expression `.` refuses: LF, CR, U+2028 and U+2029. -/
def isLineTerminator (c : Char) : Bool :=
  c = '\n' || c = '\r' || c.toNat = 0x2028 || c.toNat = 0x2029

/-- The literal `\*\*` at the head of the text; gives the text after it. -/
def stripStars : List Char → Option (List Char)
  | '*' :: '*' :: rest => some rest
  | _ => none

/-- The tail `(.*?)\*\*` of the pattern: the shortest run of characters that are not line
terminators and that is followed by `**`. Gives the captured run and the text after the
closing `**`. -/
def lazyUntilStars : List Char → Option (List Char × List Char)
  | [] => none
  | c :: rest =>
    match stripStars (c :: rest) with
    | some after => some ([], after)
    | none =>
      if isLineTerminator c then none
      else (lazyUntilStars rest).map fun r => (c :: r.1, r.2)

/-- The pattern `/\*\*(.*?)\*\*/` tried at the head of the text: capture group 1 and the
text after the match. -/
def matchBoldAt (s : List Char) : Option (List Char × List Char) :=
  match stripStars s with
  | some inner => lazyUntilStars inner
  | none => none

def strongOpen : List Char := "<strong>".toList

def strongClose : List Char := "</strong>".toList

/-- The global replace `content.replace(/\*\*(.*?)\*\*/g, '<strong>$1</strong>')`: scan from
the left; where the pattern matches, emit the replacement and go on after the match; where
it does not, keep the character and go on one character further. The first argument bounds
the number of steps; `replaceBold` gives it the length of the text, which always suffices
(`replaceBoldFuel_eq`). -/
def replaceBoldFuel : Nat → List Char → List Char
  | 0, s => s
  | _ + 1, [] => []
  | n + 1, c :: rest =>
    match matchBoldAt (c :: rest) with
    | some m => strongOpen ++ m.1 ++ strongClose ++ replaceBoldFuel n m.2
    | none => c :: replaceBoldFuel n rest

def replaceBold (s : List Char) : List Char := replaceBoldFuel s.length s

/-- The global replace `formatted.replace(/\n/g, '<br>')`. -/
def replaceNewlines : List Char → List Char
  | [] => []
  | c :: rest =>
    if c = '\n' then "<br>".toList ++ replaceNewlines rest else c :: replaceNewlines rest

/-- The function `formatMessageContent(content)` for a string `content`. -/
def formatMessageContent (content : String) : String :=
  String.mk (replaceNewlines (replaceBold content.toList))

/-- The text contains the two characters `**` side by side. -/
def containsStars : List Char → Bool
  | [] => false
  | c :: rest => (stripStars (c :: rest)).isSome || containsStars rest

/-! ## JavaScript values -/

/-- The values the script handles: what `JSON.parse` produces, and `undefined` for a
property that is not there. Numbers are the integers that print in decimal notation
(magnitude below ten to the 21); the script tests them for truthiness and converts them to
strings. -/
inductive JSValue where
  | undefined
  | null
  | bool (b : Bool)
  | num (n : Int)
  | str (s : String)
  | arr (items : List JSValue)
  | obj (props : List (String × JSValue))

inductive JSError where
  /-- The promise of `fetch` rejected. -/
  | networkError
  /-- The promise of `response.json()` rejected. -/
  | syntaxError
  /-- A property of `null` or `undefined` was read, or a value that is not a function was
  called. -/
  | typeError
  /-- An error made with `new Error(message)`, which holds the message as a string. -/
  | error (message : String)

/-- The last entry for a key, as `JSON.parse` keeps the last of duplicate keys. -/
def lookupProp (k : String) : List (String × JSValue) → JSValue
  | [] => .undefined
  | (k', v) :: rest =>
    match lookupProp k rest with
    | .undefined => if k' = k then v else .undefined
    | found => found

/-- The property read `v.k`, for the names this script reads on decoded values (`content`,
`type`, `data`, `download_url`, `filename`): none of them is defined on a primitive or on an
array. -/
def getProp (v : JSValue) (k : String) : Except JSError JSValue :=
  match v with
  | .undefined => .error .typeError
  | .null => .error .typeError
  | .obj props => .ok (lookupProp k props)
  | _ => .ok .undefined

/-- The conversion to boolean of `!v`, `v && w` and `v || w`. -/
def truthy : JSValue → Bool
  | .undefined => false
  | .null => false
  | .bool b => b
  | .num n => n != 0
  | .str s => s != ""
  | .arr _ => true
  | .obj _ => true

/-- The comparison `v === 'literal'`. -/
def strictEqStr (v : JSValue) (literal : String) : Bool :=
  match v with
  | .str s => s = literal
  | _ => false

/-- A default parameter value: taken when the argument is `undefined`. -/
def orDefault (v : JSValue) (dflt : JSValue) : JSValue :=
  match v with
  | .undefined => dflt
  | _ => v

/-- The object has a property of its own with this name. -/
def hasOwnProperty (k : String) (props : List (String × JSValue)) : Bool :=
  props.any fun kv => kv.1 == k

def isNullish : JSValue → Bool
  | .undefined => true
  | .null => true
  | _ => false

mutual
/-- The conversion `ToString(v)`, which a string attribute of an element and the `Error`
constructor apply to the value they are given. A decoded object with a `toString` of its
own has no callable conversion method that gives a primitive (a decoded value is never a
function, and `valueOf` gives back the object), so the conversion throws a `TypeError`;
any other decoded object prints through `Object.prototype.toString`. An array prints
through `join`. -/
def toJSString : JSValue → Except JSError String
  | .undefined => .ok "undefined"
  | .null => .ok "null"
  | .bool b => .ok (if b then "true" else "false")
  | .num n => .ok (toString n)
  | .str s => .ok s
  | .arr items => joinItems items
  | .obj props =>
    if hasOwnProperty "toString" props then .error .typeError else .ok "[object Object]"
/-- The method `Array.prototype.join` with the separator `,`: an item that is `null` or
`undefined` prints as the empty string, any other item through `ToString`. -/
def joinItems : List JSValue → Except JSError String
  | [] => .ok ""
  | x :: rest =>
    match toJSString x with
    | .error e => .error e
    | .ok s =>
      match rest, joinItems rest with
      | _, .error e => .error e
      | [], .ok _ => .ok (if isNullish x then "" else s)
      | _ :: _, .ok others => .ok ((if isNullish x then "" else s) ++ "," ++ others)
end

/-! ## The page -/

/-- The `<a>` element of a download message. -/
structure Anchor where
  href : String
  className : String
  innerHTML : String
  download : String
  target : String

/-- The `div` that `createMessageElement` returns. -/
structure Element where
  className : String
  /-- The text of the avatar child. -/
  avatar : String
  /-- The class list of the content child. -/
  contentClass : List String
  /-- The markup assigned to the content child. -/
  innerHTML : String
  /-- The line break and link appended to the content child of a download message. -/
  downloadBtn : Option Anchor

/-- The object given to `JSON.stringify` for the body of a chat request. -/
structure ChatRequest where
  message : String
  session_id : JSValue

/-- A call of `fetch`. -/
structure Request where
  url : String
  method : String
  contentType : Option String
  body : Option ChatRequest

structure Page where
  /-- The children of `#chat-messages`, oldest first. -/
  chatMessages : List Element
  /-- The value of the timer clock when each child was appended. -/
  appendedAt : List Nat
  userInputValue : String
  userInputHeight : String
  userInputDisabled : Bool
  userInputFocused : Bool
  sendBtnDisabled : Bool
  /-- The typing indicator has the class `hidden`. -/
  typingHidden : Bool
  charCountText : String
  charCountColor : String
  sessionId : JSValue
  /-- The milliseconds of timer delay awaited so far. -/
  timer : Nat
  /-- The number of 100 ms scroll timers that `scrollToBottom` has set. -/
  scrollTimers : Nat
  /-- The calls of `fetch`, oldest first. -/
  requests : List Request
  /-- The calls of `console.error`: the label and the error. -/
  console : List (String × JSError)

def API_URL : String := "http://127.0.0.1:5000/chat"

def WELCOME_URL : String := "http://127.0.0.1:5000/welcome"

def fallbackGreeting : String :=
  "👋 Hello! I'm your SRS Ambiguity Detection Assistant. Send me your requirements!"

def errorApology : String := "❌ Sorry, I encountered an error. Please try again."

/-- The state `Page × Option JSError` a block of statements ends in: the page, and the
exception if the block threw. -/
abbrev Outcome := Page × Option JSError

/-- The statement `await new Promise(resolve => setTimeout(resolve, ms))`. -/
def sleep (ms : Nat) (p : Page) : Page :=
  { p with timer := p.timer + ms }

def scrollToBottom (p : Page) : Page :=
  { p with scrollTimers := p.scrollTimers + 1 }

/-- The call `chatMessages.appendChild(messageDiv)`. -/
def appendChild (messageDiv : Element) (p : Page) : Page :=
  { p with chatMessages := p.chatMessages ++ [messageDiv], appendedAt := p.appendedAt ++ [p.timer] }

def consoleError (label : String) (e : JSError) (p : Page) : Page :=
  { p with console := p.console ++ [(label, e)] }

def showTyping (p : Page) : Page :=
  scrollToBottom { p with typingHidden := false }

def hideTyping (p : Page) : Page :=
  { p with typingHidden := true }

/-- The download link of `createMessageElement`, made when
`type === 'download' && data && data.download_url`. The assignments to `href` and to
`download` convert the value to a string, first the one, then the other, and a conversion
that throws leaves `createMessageElement` before anything is appended. -/
def downloadLink (type data : JSValue) : Except JSError (Option Anchor) :=
  if strictEqStr type "download" && truthy data then
    match getProp data "download_url" with
    | .error e => .error e
    | .ok url =>
      if truthy url then
        match toJSString url with
        | .error e => .error e
        | .ok href =>
          match getProp data "filename" with
          | .error e => .error e
          | .ok filename =>
            match toJSString (if truthy filename then filename else .str "improved_srs.pdf") with
            | .error e => .error e
            | .ok download =>
              .ok (some
                { href := href
                  className := "download-btn"
                  innerHTML := "📥 Download PDF"
                  download := download
                  target := "_blank" })
      else .ok none
  else .ok none

/-- The function `createMessageElement(role, content, type = 'text', data = null)`. The call
`content.replace` inside `formatMessageContent` throws a `TypeError` when `content` is not a
string. -/
def createMessageElement (role : String) (content type data : JSValue) :
    Except JSError Element :=
  let type := orDefault type (.str "text")
  let data := orDefault data .null
  match content with
  | .str s =>
    match downloadLink type data with
    | .error e => .error e
    | .ok link =>
      .ok
        { className := "message " ++ role
          avatar := if role = "bot" then "🤖" else "👤"
          contentClass :=
            if strictEqStr type "suggestion" then ["message-content", "suggestion"]
            else ["message-content"]
          innerHTML := formatMessageContent s
          downloadBtn := link }
  | _ => .error .typeError

def addUserMessage (content : JSValue) (p : Page) : Except JSError Page :=
  match createMessageElement "user" content .undefined .undefined with
  | .error e => .error e
  | .ok messageDiv => .ok (scrollToBottom (appendChild messageDiv p))

/-- The function `addBotMessage(content, type = 'text', data = null)`. -/
def addBotMessage (content type data : JSValue) (p : Page) : Except JSError Page :=
  match createMessageElement "bot" content (orDefault type (.str "text")) (orDefault data .null) with
  | .error e => .error e
  | .ok messageDiv => .ok (scrollToBottom (appendChild messageDiv p))

/-! ## The two requests -/

/-- What `response.json()` settles to. The list field of the decoded object is an array, or
is `none` when the field is missing or `null`, in which case reading its `length` throws. A
body that decodes to a string, a number, a boolean or an array reads like an object without
any of the fields. A list field that is present and is neither an array nor `null` (a
string, a number, an object with a `length` of its own) has no counterpart in this type. -/
inductive Decoded (α : Type) where
  /-- The body is not JSON: the promise rejects. -/
  | syntaxError
  /-- The body is the JSON text `null`. -/
  | null
  | object (data : α)

/-- What `fetch` settles to. -/
inductive FetchResult (α : Type) where
  | rejected
  | response (ok : Bool) (json : Decoded α)

/-- The fields `loadWelcomeMessage` reads of the decoded body. -/
structure WelcomeData where
  messages : Option (List JSValue)

/-- The fields `sendMessage` reads of the decoded body. -/
structure ChatData where
  error : JSValue
  session_id : JSValue
  bot_messages : Option (List JSValue)

/-- One turn of the welcome loop body after the delay:
`addBotMessage(data.messages[i].content, data.messages[i].type)`. -/
def revealWelcomeItem (msg : JSValue) (p : Page) : Except JSError Page :=
  match getProp msg "content" with
  | .error e => .error e
  | .ok content =>
    match getProp msg "type" with
    | .error e => .error e
    | .ok type => addBotMessage content type .undefined p

/-- The loop of `loadWelcomeMessage` from index `i` on, over the items not yet shown. -/
def revealWelcome : Nat → List JSValue → Page → Outcome
  | _, [], p => (p, none)
  | i, msg :: rest, p =>
    match revealWelcomeItem msg (sleep (500 * i) p) with
    | .ok p' => revealWelcome (i + 1) rest p'
    | .error e => (sleep (500 * i) p, some e)

/-- The call `fetch(WELCOME_URL)`. -/
def welcomeFetch : Request :=
  { url := WELCOME_URL, method := "GET", contentType := none, body := none }

/-- The `try` block of `loadWelcomeMessage`. -/
def loadWelcomeTry (r : FetchResult WelcomeData) (p : Page) : Outcome :=
  let p := { p with requests := p.requests ++ [welcomeFetch] }
  match r with
  | .rejected => (p, some .networkError)
  | .response _ .syntaxError => (p, some .syntaxError)
  | .response _ .null => (p, some .typeError)
  | .response _ (.object data) =>
    match data.messages with
    | none => (p, some .typeError)
    | some msgs => revealWelcome 0 msgs p

/-- The function `loadWelcomeMessage()`, given what its `fetch` settles to. -/
def loadWelcomeMessage (r : FetchResult WelcomeData) (p : Page) : Outcome :=
  match loadWelcomeTry r p with
  | (p, none) => (p, none)
  | (p, some e) =>
    match addBotMessage (.str fallbackGreeting) .undefined .undefined
        (consoleError "Failed to load welcome message:" e p) with
    | .ok p' => (p', none)
    | .error e' => (consoleError "Failed to load welcome message:" e p, some e')

/-- One turn of the chat loop body after the delay:
`const msg = data.bot_messages[i]; addBotMessage(msg.content, msg.type, msg.data)`. -/
def revealReplyItem (msg : JSValue) (p : Page) : Except JSError Page :=
  match getProp msg "content" with
  | .error e => .error e
  | .ok content =>
    match getProp msg "type" with
    | .error e => .error e
    | .ok type =>
      match getProp msg "data" with
      | .error e => .error e
      | .ok data => addBotMessage content type data p

/-- The loop of `sendMessage` over the items not yet shown. -/
def revealReplies : List JSValue → Page → Outcome
  | [], p => (p, none)
  | msg :: rest, p =>
    match revealReplyItem msg (sleep 400 p) with
    | .ok p' => revealReplies rest p'
    | .error e => (sleep 400 p, some e)

/-- White space and line terminators, which `String.prototype.trim` removes. -/
def isTrimmed (c : Char) : Bool :=
  let n := c.toNat
  n = 0x09 || n = 0x0A || n = 0x0B || n = 0x0C || n = 0x0D || n = 0x20 || n = 0xA0 ||
  n = 0x1680 || (0x2000 ≤ n && n ≤ 0x200A) || n = 0x2028 || n = 0x2029 || n = 0x202F ||
  n = 0x205F || n = 0x3000 || n = 0xFEFF

/-- The method `String.prototype.trim`. -/
def trim (s : String) : String :=
  String.mk ((s.toList.dropWhile isTrimmed).reverse.dropWhile isTrimmed).reverse

/-- The call `fetch(API_URL, ...)`: a POST with the JSON content type whose body is made of
`message` and the stored session id. -/
def chatFetch (message : String) (sessionId : JSValue) : Request :=
  { url := API_URL, method := "POST", contentType := some "application/json",
    body := some { message := message, session_id := sessionId } }

/-- The expression `new Error(message)`: the constructor converts the message to a string,
and a conversion that throws is what the expression throws. -/
def newError (message : JSValue) : JSError :=
  match toJSString message with
  | .ok text => .error text
  | .error e => e

/-- The `try` block of `sendMessage`. -/
def sendMessageTry (r : FetchResult ChatData) (message : String) (p : Page) : Outcome :=
  let p := { p with requests := p.requests ++ [chatFetch message p.sessionId] }
  match r with
  | .rejected => (p, some .networkError)
  | .response _ .syntaxError => (p, some .syntaxError)
  | .response _ .null => (p, some .typeError)
  | .response false (.object data) =>
    (p, some (newError (if truthy data.error then data.error else .str "Failed to get response")))
  | .response true (.object data) =>
    let p := hideTyping { p with sessionId := data.session_id }
    match data.bot_messages with
    | none => (p, some .typeError)
    | some msgs => revealReplies msgs p

/-- The `finally` block of `sendMessage`. -/
def sendMessageFinally (p : Page) : Page :=
  { p with userInputDisabled := false, sendBtnDisabled := false, userInputFocused := true }

/-- The `catch` block of `sendMessage`. -/
def sendMessageCatch (e : JSError) (p : Page) : Outcome :=
  match addBotMessage (.str errorApology) .undefined .undefined
      (hideTyping (consoleError "Error:" e p)) with
  | .ok p' => (p', none)
  | .error e' => (hideTyping (consoleError "Error:" e p), some e')

/-- The statements between the user message and the `try`: clear the input box, show the
typing indicator, disable the controls. -/
def prepareSend (p : Page) : Page :=
  let p := showTyping
    { p with userInputValue := "", userInputHeight := "auto", charCountText := "0" }
  { p with userInputDisabled := true, sendBtnDisabled := true }

/-- The `try`, `catch`, `finally` statement of `sendMessage`. An exception of the `catch`
block leaves the function after the `finally` block has run. -/
def sendMessageGuarded (r : FetchResult ChatData) (message : String) (p : Page) : Outcome :=
  match sendMessageTry r message p with
  | (p', none) => (sendMessageFinally p', none)
  | (p', some e) =>
    match sendMessageCatch e p' with
    | (p'', thrown) => (sendMessageFinally p'', thrown)

/-- The function `sendMessage()`, given what its `fetch` settles to. The second component
is the exception the returned promise rejects with, if it does. -/
def sendMessage (r : FetchResult ChatData) (p : Page) : Outcome :=
  let message := trim p.userInputValue
  if message = "" then (p, none)
  else
    match addUserMessage (.str message) p with
    | .error e => (p, some e)
    | .ok p' => sendMessageGuarded r message (prepareSend p')

/-! ## Auxiliary notions of the proofs -/

/-- A text is inert when the bold replacement finds no match that starts inside it,
whatever text follows. -/
def Inert (p : List Char) : Prop := ∀ t, replaceBold (p ++ t) = p ++ replaceBold t

/-- The page after `els` were appended one by one, the `k`-th of them when the timer clock
showed `at k`, `total` milliseconds of delay having been awaited in all. -/
def revealed (els : List Element) (at_ : Nat → Nat) (total : Nat) (p : Page) : Page :=
  { p with
    chatMessages := p.chatMessages ++ els
    appendedAt := p.appendedAt ++ (List.range els.length).map at_
    timer := p.timer + total
    scrollTimers := p.scrollTimers + els.length }

/-- The delay the welcome loop awaits in `n` turns that start at index `i`. -/
def cumulativeDelay (i : Nat) : Nat → Nat
  | 0 => 0
  | n + 1 => 500 * i + cumulativeDelay (i + 1) n

/-! ## Typing and submitting -/

/-- The `length` of a JavaScript string: its number of UTF-16 code units. -/
def utf16Length (s : String) : Nat :=
  (s.toList.map fun c => if c.toNat < 0x10000 then 1 else 2).sum

/-- The listener of the `input` event; `scrollHeight` is the height the layout reports. -/
def inputEvent (scrollHeight : Nat) (p : Page) : Page :=
  { p with
    charCountText := toString (utf16Length p.userInputValue)
    userInputHeight := toString (min scrollHeight 240) ++ "px"
    charCountColor :=
      if utf16Length p.userInputValue > 9500 then "#f5576c" else "var(--text-muted)" }

/-- The user replaces the text of the input box, then clicks send or presses Enter, and the
request settles as `outcome`. -/
structure Submission where
  text : String
  scrollHeight : Nat
  outcome : FetchResult ChatData

def submit (s : Submission) (p : Page) : Page :=
  (sendMessage s.outcome (inputEvent s.scrollHeight { p with userInputValue := s.text })).1

/-- Submissions one after the other: the controls are disabled until `sendMessage` settles,
so the next one starts from the page the previous one ended in. -/
def runSubmissions : List Submission → Page → Page
  | [], p => p
  | s :: rest, p => runSubmissions rest (submit s p)

/-! ## Vocabulary of the properties -/

/-- A list item that can be shown: reading its `content` gives a string. -/
def wellFormed (msg : JSValue) : Bool :=
  match getProp msg "content" with
  | .ok (.str _) => true
  | _ => false

/-- The value converts to a string: `ToString` does not throw on it. -/
def printable (v : JSValue) : Bool :=
  match toJSString v with
  | .ok _ => true
  | .error _ => false

/-- The `download_url` and the `filename` of a data object convert to strings. Data that is
not an object has neither field. -/
def linkPrintable : JSValue → Bool
  | .obj props =>
    printable (lookupProp "download_url" props) && printable (lookupProp "filename" props)
  | _ => true

/-- A reply item that can be shown: reading its `content` gives a string, and the link
fields of its `data`, where it has any, convert to strings (a URL and a file name do). -/
def wellFormedReply (msg : JSValue) : Bool :=
  wellFormed msg &&
    match getProp msg "data" with
    | .ok data => linkPrintable data
    | .error _ => false

/-- A reply item `{"content": text, "type": "download", "data": {"download_url": url,
"filename": name}}`. -/
def downloadItem (text url name : String) : JSValue :=
  .obj [("content", .str text), ("type", .str "download"),
    ("data", .obj [("download_url", .str url), ("filename", .str name)])]

/-- The element carries the content, type and data of the reply item. -/
def RendersReply (msg : JSValue) (el : Element) : Prop :=
  ∃ content type data, getProp msg "content" = .ok content ∧ getProp msg "type" = .ok type ∧
    getProp msg "data" = .ok data ∧ createMessageElement "bot" content type data = .ok el

/-- The element carries the content and type of the welcome item, and no data. -/
def RendersWelcome (msg : JSValue) (el : Element) : Prop :=
  ∃ content type, getProp msg "content" = .ok content ∧ getProp msg "type" = .ok type ∧
    createMessageElement "bot" content type .null = .ok el

/-- A chat send that fails: the fetch rejects, the body cannot be decoded, or the status is
not a success. -/
def isFailure : FetchResult ChatData → Bool
  | .rejected => true
  | .response _ .syntaxError => true
  | .response false _ => true
  | .response true _ => false

/-- A welcome fetch that fails in transport or in decoding the body. -/
def isWelcomeFailure : FetchResult WelcomeData → Bool
  | .rejected => true
  | .response _ .syntaxError => true
  | .response _ _ => false

/-- The session id a chat response returns, when it is a successful one: a success status
with a body that decodes to a JSON value other than `null`. -/
def returnedSession : FetchResult ChatData → Option JSValue
  | .response true (.object data) => some data.session_id
  | _ => none

/-- The session id of the most recent successful response among the earlier ones, `null`
when there is none. -/
def mostRecentSession (earlier : List (FetchResult ChatData)) : JSValue :=
  ((earlier.filterMap returnedSession).getLast?).getD .null

/-- The outcomes of the submissions that issue a request, in order. -/
def issued (subs : List Submission) : List (FetchResult ChatData) :=
  (subs.filter fun s => trim s.text != "").map fun s => s.outcome

/-- The `session_id` fields of the chat request bodies, in the order of the requests. -/
def sessionIdsSent (requests : List Request) : List (Option JSValue) :=
  requests.map fun r => r.body.map fun b => b.session_id

/-- A page right after the script is loaded, with an empty transcript. -/
def blankPage : Page :=
  { chatMessages := []
    appendedAt := []
    userInputValue := ""
    userInputHeight := "auto"
    userInputDisabled := false
    userInputFocused := false
    sendBtnDisabled := false
    typingHidden := true
    charCountText := "0"
    charCountColor := "var(--text-muted)"
    sessionId := .null
    timer := 0
    scrollTimers := 0
    requests := []
    console := [] }

/-- A reply item `{"content": text, "type": "text"}`. -/
def textItem (text : String) : JSValue :=
  .obj [("content", .str text), ("type", .str "text")]

/-! ## The formatter: lemmas -/

theorem stripStars_eq_some {s r : List Char} (h : stripStars s = some r) : s = '*' :: '*' :: r := by
  unfold stripStars at h
  split at h
  · simp at h; subst h; rfl
  · simp at h

theorem stripStars_stars (r : List Char) : stripStars ('*' :: '*' :: r) = some r := rfl

theorem stripStars_cons_ne {c : Char} (h : c ≠ '*') (r : List Char) : stripStars (c :: r) = none := by
  unfold stripStars
  split
  · rename_i heq; simp at heq; exact absurd heq.1 h
  · rfl

theorem stripStars_star_cons_ne {c : Char} (h : c ≠ '*') (r : List Char) :
    stripStars ('*' :: c :: r) = none := by
  unfold stripStars
  split
  · rename_i heq; simp at heq; exact absurd heq.1 h
  · rfl

theorem lazyUntilStars_spec : ∀ (s : List Char) (m : List Char × List Char),
    lazyUntilStars s = some m → s = m.1 ++ '*' :: '*' :: m.2
  | [], m, h => by simp [lazyUntilStars] at h
  | c :: rest, m, h => by
    unfold lazyUntilStars at h
    split at h
    · rename_i after hs
      simp at h; subst h
      simpa using stripStars_eq_some hs
    · split at h
      · simp at h
      · simp only [Option.map_eq_some'] at h
        obtain ⟨r, hr, hm⟩ := h
        subst hm
        have := lazyUntilStars_spec rest r hr
        simp [← this]

theorem matchBoldAt_spec {s : List Char} {m : List Char × List Char} (h : matchBoldAt s = some m) :
    s = '*' :: '*' :: (m.1 ++ '*' :: '*' :: m.2) := by
  unfold matchBoldAt at h
  split at h
  · rename_i inner hs
    rw [stripStars_eq_some hs, ← lazyUntilStars_spec _ _ h]
  · simp at h

theorem matchBoldAt_length {s : List Char} {m : List Char × List Char} (h : matchBoldAt s = some m) :
    m.2.length + 4 ≤ s.length := by
  have := congrArg List.length (matchBoldAt_spec h)
  simp at this
  omega

theorem replaceBoldFuel_eq : ∀ (n k : Nat) (s : List Char), s.length ≤ n → s.length ≤ k →
    replaceBoldFuel n s = replaceBoldFuel k s
  | 0, k, s, hn, _ => by
    have : s = [] := List.length_eq_zero.mp (Nat.le_zero.mp hn)
    subst this
    cases k <;> rfl
  | n + 1, 0, s, _, hk => by
    have : s = [] := List.length_eq_zero.mp (Nat.le_zero.mp hk)
    subst this
    rfl
  | n + 1, k + 1, [], _, _ => rfl
  | n + 1, k + 1, c :: rest, hn, hk => by
    simp only [replaceBoldFuel]
    simp only [List.length_cons] at hn hk
    cases hm : matchBoldAt (c :: rest) with
    | none => simp only []; rw [replaceBoldFuel_eq n k rest (by omega) (by omega)]
    | some m =>
      have hl := matchBoldAt_length hm
      simp only [List.length_cons] at hl
      simp only []
      rw [replaceBoldFuel_eq n k m.2 (by omega) (by omega)]

theorem replaceBold_nil : replaceBold [] = [] := rfl

theorem replaceBold_cons (c : Char) (rest : List Char) :
    replaceBold (c :: rest) =
      match matchBoldAt (c :: rest) with
      | some m => strongOpen ++ m.1 ++ strongClose ++ replaceBold m.2
      | none => c :: replaceBold rest := by
  unfold replaceBold
  simp only [List.length_cons, replaceBoldFuel]
  cases hm : matchBoldAt (c :: rest) with
  | none => rfl
  | some m =>
    have hl := matchBoldAt_length hm
    simp only [List.length_cons] at hl
    simp only []
    rw [replaceBoldFuel_eq rest.length m.2.length m.2 (by omega) (le_refl _)]


theorem replaceBold_of_none {c : Char} {rest : List Char} (h : matchBoldAt (c :: rest) = none) :
    replaceBold (c :: rest) = c :: replaceBold rest := by
  rw [replaceBold_cons, h]

theorem replaceBold_of_some {c : Char} {rest : List Char} {m : List Char × List Char}
    (h : matchBoldAt (c :: rest) = some m) :
    replaceBold (c :: rest) = strongOpen ++ m.1 ++ strongClose ++ replaceBold m.2 := by
  rw [replaceBold_cons, h]

theorem matchBoldAt_of_stripStars_none {s : List Char} (h : stripStars s = none) :
    matchBoldAt s = none := by
  unfold matchBoldAt
  rw [h]

theorem inert_nil : Inert [] := fun _ => rfl

theorem inert_cons {c : Char} {p : List Char} (hc : c ≠ '*') (hp : Inert p) : Inert (c :: p) := by
  intro t
  rw [List.cons_append, replaceBold_of_none (matchBoldAt_of_stripStars_none (stripStars_cons_ne hc _)), hp t]
  rfl

theorem inert_star_cons {d : Char} {p : List Char} (hd : d ≠ '*') (hp : Inert (d :: p)) :
    Inert ('*' :: d :: p) := by
  intro t
  rw [List.cons_append, List.cons_append,
    replaceBold_of_none (matchBoldAt_of_stripStars_none (stripStars_star_cons_ne hd _)),
    ← List.cons_append, hp t]
  rfl

theorem inert_of_no_star : ∀ (p : List Char), (∀ c ∈ p, c ≠ '*') → Inert p
  | [], _ => inert_nil
  | c :: p, h => inert_cons (h c (List.mem_cons_self _ _))
      (inert_of_no_star p fun d hd => h d (List.mem_cons_of_mem _ hd))

theorem inert_append_of_no_star {p q : List Char} (hp : ∀ c ∈ p, c ≠ '*') (hq : Inert q) :
    Inert (p ++ q) := by
  induction p with
  | nil => simpa using hq
  | cons c p ih =>
    exact inert_cons (hp c (List.mem_cons_self _ _)) (ih fun d hd => hp d (List.mem_cons_of_mem _ hd))

theorem strongOpen_no_star : ∀ c ∈ strongOpen, c ≠ '*' := by decide
theorem strongClose_no_star : ∀ c ∈ strongClose, c ≠ '*' := by decide

theorem inert_capture : ∀ (s : List Char) (m : List Char × List Char),
    lazyUntilStars s = some m → ∀ (d : Char) (q : List Char), d ≠ '*' → Inert (d :: q) →
    Inert (m.1 ++ d :: q)
  | [], m, h => by simp [lazyUntilStars] at h
  | c :: rest, m, h => by
    intro d q hd hq
    unfold lazyUntilStars at h
    split at h
    · simp at h; subst h; simpa using hq
    · rename_i hs
      split at h
      · simp at h
      · simp only [Option.map_eq_some'] at h
        obtain ⟨r, hr, hm⟩ := h
        subst hm
        have ih := inert_capture rest r hr d q hd hq
        by_cases hc : c = '*'
        · subst hc
          have hrest := lazyUntilStars_spec rest r hr
          cases hr1 : r.1 with
          | nil =>
            rw [hr1] at hrest
            simp only [List.nil_append] at hrest
            rw [hrest, stripStars_stars] at hs
            simp at hs
          | cons e r1 =>
            rw [hr1] at hrest ih
            have he : e ≠ '*' := by
              intro he
              subst he
              rw [hrest] at hs
              simp [stripStars] at hs
            exact inert_star_cons he ih
        · exact inert_cons hc ih

theorem inert_match {s : List Char} {m : List Char × List Char} (h : matchBoldAt s = some m) :
    Inert (strongOpen ++ m.1 ++ strongClose) := by
  unfold matchBoldAt at h
  split at h
  · have hclose : Inert strongClose := inert_of_no_star _ strongClose_no_star
    have : Inert (m.1 ++ strongClose) := by
      have := inert_capture _ m h '<' "/strong>".toList (by decide) hclose
      exact this
    rw [List.append_assoc]
    exact inert_append_of_no_star strongOpen_no_star this
  · simp at h

theorem replaceBold_head_star {s u : List Char} (h : replaceBold s = '*' :: u) :
    ∃ r, s = '*' :: r ∧ u = replaceBold r := by
  cases s with
  | nil => simp [replaceBold_nil] at h
  | cons c rest =>
    rw [replaceBold_cons] at h
    split at h
    · simp [strongOpen] at h
    · simp at h
      exact ⟨rest, by rw [h.1], h.2.symm⟩

theorem lazyUntilStars_replaceBold_none : ∀ (t : List Char),
    lazyUntilStars t = none → lazyUntilStars (replaceBold t) = none
  | [], _ => rfl
  | c :: rest, h => by
    unfold lazyUntilStars at h
    split at h
    · simp at h
    · rename_i hs
      rw [replaceBold_of_none (matchBoldAt_of_stripStars_none hs)]
      have hs2 : stripStars (c :: replaceBold rest) = none := by
        cases hx : stripStars (c :: replaceBold rest) with
        | none => rfl
        | some after =>
          have := stripStars_eq_some hx
          simp at this
          obtain ⟨hc, hr⟩ := this
          obtain ⟨r, hr1, _⟩ := replaceBold_head_star hr
          rw [hc, hr1, stripStars_stars] at hs
          simp at hs
      unfold lazyUntilStars
      rw [hs2]
      split at h
      · rename_i ht; simp [ht]
      · rename_i ht
        simp only [Option.map_eq_none'] at h
        simp [ht, lazyUntilStars_replaceBold_none rest h]

theorem matchBoldAt_replaceBold_none {c : Char} {rest : List Char}
    (h : matchBoldAt (c :: rest) = none) : matchBoldAt (c :: replaceBold rest) = none := by
  cases hx : stripStars (c :: replaceBold rest) with
  | none => exact matchBoldAt_of_stripStars_none hx
  | some after =>
    have := stripStars_eq_some hx
    simp at this
    obtain ⟨hc, hr⟩ := this
    obtain ⟨r, hr1, hr2⟩ := replaceBold_head_star hr
    subst hc hr1
    unfold matchBoldAt at h ⊢
    rw [stripStars_stars] at h
    rw [hx]
    simp only [] at h ⊢
    rw [hr2]
    exact lazyUntilStars_replaceBold_none r h

theorem replaceBold_idem_aux : ∀ (n : Nat) (s : List Char), s.length ≤ n →
    replaceBold (replaceBold s) = replaceBold s
  | _, [], _ => rfl
  | 0, c :: rest, h => by simp at h
  | n + 1, c :: rest, h => by
    simp only [List.length_cons] at h
    cases hm : matchBoldAt (c :: rest) with
    | none =>
      rw [replaceBold_of_none hm, replaceBold_of_none (matchBoldAt_replaceBold_none hm),
        replaceBold_idem_aux n rest (by omega)]
    | some m =>
      have hl := matchBoldAt_length hm
      simp only [List.length_cons] at hl
      rw [replaceBold_of_some hm, inert_match hm, replaceBold_idem_aux n m.2 (by omega)]

theorem replaceBold_idem (s : List Char) : replaceBold (replaceBold s) = replaceBold s :=
  replaceBold_idem_aux s.length s (le_refl _)


theorem replaceNewlines_of_not_mem : ∀ (l : List Char), '\n' ∉ l → replaceNewlines l = l
  | [], _ => rfl
  | c :: rest, h => by
    have hc : c ≠ '\n' := fun e => h (e ▸ List.mem_cons_self _ _)
    have hr : '\n' ∉ rest := fun e => h (List.mem_cons_of_mem _ e)
    simp [replaceNewlines, hc, replaceNewlines_of_not_mem rest hr]

theorem replaceNewlines_append : ∀ (x y : List Char),
    replaceNewlines (x ++ y) = replaceNewlines x ++ replaceNewlines y
  | [], _ => rfl
  | c :: rest, y => by
    by_cases hc : c = '\n' <;> simp [replaceNewlines, hc, replaceNewlines_append rest y]

theorem mem_replaceBold_aux : ∀ (n : Nat) (s : List Char), s.length ≤ n →
    ∀ x ∈ replaceBold s, x ∈ s ∨ x ∈ strongOpen ∨ x ∈ strongClose
  | _, [], _ => by simp [replaceBold_nil]
  | 0, c :: rest, h => by simp at h
  | n + 1, c :: rest, h => by
    intro x hx
    simp only [List.length_cons] at h
    cases hm : matchBoldAt (c :: rest) with
    | none =>
      rw [replaceBold_of_none hm, List.mem_cons] at hx
      rcases hx with hx | hx
      · exact Or.inl (hx ▸ List.mem_cons_self _ _)
      · rcases mem_replaceBold_aux n rest (by omega) x hx with h1 | h1
        · exact Or.inl (List.mem_cons_of_mem _ h1)
        · exact Or.inr h1
    | some m =>
      have hl := matchBoldAt_length hm
      have hs := matchBoldAt_spec hm
      simp only [List.length_cons] at hl
      rw [replaceBold_of_some hm] at hx
      simp only [List.mem_append] at hx
      rcases hx with ((hx | hx) | hx) | hx
      · exact Or.inr (Or.inl hx)
      · left; rw [hs]; simp [hx]
      · exact Or.inr (Or.inr hx)
      · rcases mem_replaceBold_aux n m.2 (by omega) x hx with h1 | h1
        · left; rw [hs]; simp [h1]
        · exact Or.inr h1

theorem newline_not_mem_replaceBold {s : List Char} (h : '\n' ∉ s) : '\n' ∉ replaceBold s := by
  intro hx
  rcases mem_replaceBold_aux s.length s (le_refl _) _ hx with h1 | h1 | h1
  · exact h h1
  · revert h1; decide
  · revert h1; decide

theorem newline_not_mem_replaceNewlines : ∀ (l : List Char), '\n' ∉ replaceNewlines l
  | [] => by simp [replaceNewlines]
  | c :: rest => by
    have ih := newline_not_mem_replaceNewlines rest
    by_cases hc : c = '\n'
    · simp only [replaceNewlines, hc, if_true, List.mem_append, not_or]
      exact ⟨by decide, ih⟩
    · simp only [replaceNewlines, hc, if_false, List.mem_cons, not_or]
      exact ⟨fun e => hc e.symm, ih⟩

theorem replaceBold_of_no_stars : ∀ (l : List Char), containsStars l = false →
    replaceBold l = l
  | [], _ => rfl
  | c :: rest, h => by
    simp only [containsStars, Bool.or_eq_false_iff] at h
    have hs : stripStars (c :: rest) = none := by
      cases hx : stripStars (c :: rest) with
      | none => rfl
      | some r => rw [hx] at h; simp at h
    rw [replaceBold_of_none (matchBoldAt_of_stripStars_none hs),
      replaceBold_of_no_stars rest h.2]

theorem lazyUntilStars_plain : ∀ (a rest : List Char),
    (∀ c ∈ a, c ≠ '*' ∧ isLineTerminator c = false) →
    lazyUntilStars (a ++ '*' :: '*' :: rest) = some (a, rest)
  | [], rest, _ => rfl
  | c :: a, rest, h => by
    have hc := h c (List.mem_cons_self _ _)
    have ih := lazyUntilStars_plain a rest fun d hd => h d (List.mem_cons_of_mem _ hd)
    rw [List.cons_append]
    unfold lazyUntilStars
    rw [stripStars_cons_ne hc.1]
    simp [hc.2, ih]

/-! ## The formatter: properties -/

/-- C8, as stated, fails: the output of the formatter for the five characters `**`, line
feed, `**` still contains a literal `**`, and formatting that output wraps it in `<strong>`,
because the first pass turns the line feed, which the pattern cannot cross, into `<br>`,
which it can. -/
theorem formatMessageContent_not_idempotent :
    containsStars (formatMessageContent "**\n**").toList = true ∧
    formatMessageContent (formatMessageContent "**\n**") ≠ formatMessageContent "**\n**" := by
  decide

/-- C8, amended: `formatMessageContent` is idempotent on every content string that has no
line feed, and on every content string whose formatted output has no literal `**` left
(as for the content `**bold**`, line feed, `line2`). -/
theorem formatMessageContent_idempotent_unless_stars_across_newline (s : String)
    (h : '\n' ∉ s.toList ∨ containsStars (formatMessageContent s).toList = false) :
    formatMessageContent (formatMessageContent s) = formatMessageContent s := by
  show String.mk (replaceNewlines (replaceBold (replaceNewlines (replaceBold s.toList)))) =
    String.mk (replaceNewlines (replaceBold s.toList))
  rcases h with h | h
  · have h1 : '\n' ∉ replaceBold s.toList := newline_not_mem_replaceBold h
    have h2 : replaceNewlines (replaceBold s.toList) = replaceBold s.toList :=
      replaceNewlines_of_not_mem _ h1
    rw [h2, replaceBold_idem, h2]
  · have h1 : containsStars (replaceNewlines (replaceBold s.toList)) = false := h
    rw [replaceBold_of_no_stars _ h1,
      replaceNewlines_of_not_mem _ (newline_not_mem_replaceNewlines _)]

theorem formatMessageContent_idempotent_unless_stars_across_newline_witness :
    ('\n' ∉ "**bold**\nline2".toList ∨
      containsStars (formatMessageContent "**bold**\nline2").toList = false) ∧
    formatMessageContent (formatMessageContent "**bold**\nline2") =
      formatMessageContent "**bold**\nline2" :=
  ⟨by decide,
    formatMessageContent_idempotent_unless_stars_across_newline "**bold**\nline2" (by decide)⟩

/-- C9: for texts `a` and `b` without an asterisk and without a line terminator, the content
`**a**`, line feed, `b` is formatted to `<strong>a</strong><br>b`. -/
theorem formatMessageContent_bold_then_line (a b : String)
    (ha : ∀ c ∈ a.toList, c ≠ '*' ∧ isLineTerminator c = false)
    (hb : ∀ c ∈ b.toList, c ≠ '*' ∧ isLineTerminator c = false) :
    formatMessageContent ("**" ++ a ++ "**\n" ++ b) = "<strong>" ++ a ++ "</strong><br>" ++ b := by
  have hnl : ∀ (l : List Char), (∀ c ∈ l, c ≠ '*' ∧ isLineTerminator c = false) → '\n' ∉ l := by
    intro l hl hmem
    have := (hl _ hmem).2
    simp [isLineTerminator] at this
  have hm : matchBoldAt ('*' :: '*' :: (a.toList ++ '*' :: '*' :: '\n' :: b.toList)) =
      some (a.toList, '\n' :: b.toList) := by
    unfold matchBoldAt
    rw [stripStars_stars]
    exact lazyUntilStars_plain _ _ ha
  have hrest : replaceBold ('\n' :: b.toList) = '\n' :: b.toList := by
    have hi : Inert ('\n' :: b.toList) :=
      inert_cons (by decide) (inert_of_no_star _ fun c hc => (hb c hc).1)
    have := hi []
    simpa [replaceBold_nil] using this
  have hbold : replaceBold ("**" ++ a ++ "**\n" ++ b).toList =
      strongOpen ++ a.toList ++ strongClose ++ '\n' :: b.toList := by
    have : ("**" ++ a ++ "**\n" ++ b).toList =
        '*' :: '*' :: (a.toList ++ '*' :: '*' :: '\n' :: b.toList) := by
      simp [String.toList]
    rw [this, replaceBold_of_some hm, hrest]
  apply String.ext
  unfold formatMessageContent
  rw [hbold]
  simp only [replaceNewlines_append, String.data_append]
  rw [replaceNewlines_of_not_mem strongOpen (by decide),
    replaceNewlines_of_not_mem strongClose (by decide),
    replaceNewlines_of_not_mem a.toList (hnl _ ha)]
  simp only [replaceNewlines, if_true]
  rw [replaceNewlines_of_not_mem b.toList (hnl _ hb)]
  simp [strongOpen, strongClose, String.toList]

theorem formatMessageContent_bold_then_line_witness :
    formatMessageContent ("**" ++ "bold" ++ "**\n" ++ "line2") =
      "<strong>" ++ "bold" ++ "</strong><br>" ++ "line2" :=
  formatMessageContent_bold_then_line "bold" "line2" (by decide) (by decide)


/-! ## The page: lemmas -/

theorem getProp_ok_of_ok {v : JSValue} {k : String} {x : JSValue} (h : getProp v k = .ok x)
    (k' : String) : ∃ y, getProp v k' = .ok y := by
  cases v <;> simp [getProp] at h ⊢

theorem getProp_ok_of_truthy {v : JSValue} (h : truthy v = true) (k : String) :
    ∃ y, getProp v k = .ok y := by
  cases v <;> simp [getProp, truthy] at h ⊢

theorem toJSString_ok_of_printable {v : JSValue} (h : printable v = true) :
    ∃ s, toJSString v = .ok s := by
  unfold printable at h
  split at h
  · rename_i s hs
    exact ⟨s, hs⟩
  · simp at h

theorem downloadLink_ok {data : JSValue} (h : linkPrintable data = true) (type : JSValue) :
    ∃ link, downloadLink type (orDefault data .null) = .ok link := by
  cases data with
  | obj props =>
    simp only [linkPrintable, Bool.and_eq_true] at h
    obtain ⟨href, hhref⟩ := toJSString_ok_of_printable h.1
    obtain ⟨name, hname⟩ := toJSString_ok_of_printable h.2
    have hdflt : toJSString (.str "improved_srs.pdf") = .ok "improved_srs.pdf" := rfl
    simp only [downloadLink, orDefault, getProp]
    split
    · split
      · rw [hhref]
        simp only []
        split
        · rename_i hf
          split at hf
          · rw [hname] at hf; simp at hf
          · rw [hdflt] at hf; simp at hf
        · exact ⟨_, rfl⟩
      · exact ⟨_, rfl⟩
    · exact ⟨_, rfl⟩
  | undefined => exact ⟨none, by simp [downloadLink, orDefault, truthy]⟩
  | null => exact ⟨none, by simp [downloadLink, orDefault, truthy]⟩
  | bool b => exact ⟨none, by simp [downloadLink, orDefault, getProp, truthy]⟩
  | num n => exact ⟨none, by simp [downloadLink, orDefault, getProp, truthy]⟩
  | str s => exact ⟨none, by simp [downloadLink, orDefault, getProp, truthy]⟩
  | arr items => exact ⟨none, by simp [downloadLink, orDefault, getProp, truthy]⟩

theorem orDefault_orDefault (v dflt : JSValue) :
    orDefault (orDefault v dflt) dflt = orDefault v dflt := by
  cases v <;> cases dflt <;> rfl

theorem createMessageElement_str (role s : String) (type : JSValue) {data : JSValue}
    (h : linkPrintable data = true) :
    ∃ el, createMessageElement role (.str s) type data = .ok el ∧
      el.className = "message " ++ role ∧ el.innerHTML = formatMessageContent s := by
  obtain ⟨link, hl⟩ := downloadLink_ok h (orDefault type (.str "text"))
  simp only [createMessageElement, hl]
  exact ⟨_, rfl, rfl, rfl⟩

theorem addBotMessage_eq (content type data : JSValue) (p : Page) :
    addBotMessage content type data p =
      match createMessageElement "bot" content type data with
      | .error e => .error e
      | .ok messageDiv => .ok (scrollToBottom (appendChild messageDiv p)) := by
  have : createMessageElement "bot" content (orDefault type (.str "text")) (orDefault data .null) =
      createMessageElement "bot" content type data := by
    simp only [createMessageElement, orDefault_orDefault]
  simp only [addBotMessage, this]


theorem revealReplyItem_wellFormed {msg : JSValue} (h : wellFormedReply msg = true) :
    ∃ el, RendersReply msg el ∧ el.className = "message bot" ∧
      ∀ p, revealReplyItem msg p = .ok (scrollToBottom (appendChild el p)) := by
  simp only [wellFormedReply, Bool.and_eq_true] at h
  obtain ⟨h, hlink⟩ := h
  unfold wellFormed at h
  split at h
  · rename_i s hc
    obtain ⟨type, ht⟩ := getProp_ok_of_ok hc "type"
    obtain ⟨data, hd⟩ := getProp_ok_of_ok hc "data"
    rw [hd] at hlink
    obtain ⟨el, hel, hcls, _⟩ := createMessageElement_str "bot" s type hlink
    refine ⟨el, ⟨_, _, _, hc, ht, hd, hel⟩, hcls, fun p => ?_⟩
    simp only [revealReplyItem, hc, ht, hd, addBotMessage_eq, hel]
  · simp at h

theorem revealWelcomeItem_wellFormed {msg : JSValue} (h : wellFormed msg = true) :
    ∃ el, RendersWelcome msg el ∧ el.className = "message bot" ∧
      ∀ p, revealWelcomeItem msg p = .ok (scrollToBottom (appendChild el p)) := by
  unfold wellFormed at h
  split at h
  · rename_i s hc
    obtain ⟨type, ht⟩ := getProp_ok_of_ok hc "type"
    obtain ⟨el, hel, hcls, _⟩ := createMessageElement_str "bot" s type (rfl : linkPrintable .null = true)
    have hel' : createMessageElement "bot" (.str s) type .undefined = .ok el := by
      rw [← hel]; simp only [createMessageElement, orDefault]
    refine ⟨el, ⟨_, _, hc, ht, hel⟩, hcls, fun p => ?_⟩
    simp only [revealWelcomeItem, hc, ht, addBotMessage_eq, hel']
  · simp at h

theorem revealReplies_wellFormed : ∀ (msgs : List JSValue), (∀ m ∈ msgs, wellFormedReply m = true) →
    ∃ els, List.Forall₂ RendersReply msgs els ∧ (∀ el ∈ els, el.className = "message bot") ∧
      ∀ p, revealReplies msgs p =
        (revealed els (fun k => p.timer + 400 * (k + 1)) (400 * msgs.length) p, none)
  | [], _ => ⟨[], List.Forall₂.nil, by simp, fun p => by simp [revealReplies, revealed]⟩
  | msg :: rest, h => by
    obtain ⟨el, hel, hcls, hitem⟩ := revealReplyItem_wellFormed (h msg (List.mem_cons_self _ _))
    obtain ⟨els, hels, hclss, hrest⟩ :=
      revealReplies_wellFormed rest fun m hm => h m (List.mem_cons_of_mem _ hm)
    refine ⟨el :: els, List.Forall₂.cons hel hels, ?_, fun p => ?_⟩
    · intro x hx
      rcases List.mem_cons.mp hx with hx | hx
      · exact hx ▸ hcls
      · exact hclss x hx
    · simp only [revealReplies, hitem, hrest]
      simp only [revealed, sleep, appendChild, scrollToBottom, List.length_cons,
        List.range_succ_eq_map, List.map_cons, List.map_map, List.append_assoc,
        List.singleton_append, Prod.mk.injEq, and_true, Page.mk.injEq, true_and]
      refine ⟨?_, by omega, by omega⟩
      have hfun : (fun k => p.timer + 400 + 400 * (k + 1)) =
          ((fun k => p.timer + 400 * (k + 1)) ∘ Nat.succ) := by
        funext k
        simp only [Function.comp, Nat.succ_eq_add_one]
        omega
      rw [hfun]


theorem cumulativeDelay_succ : ∀ (k i : Nat),
    cumulativeDelay i (k + 1) = 500 * i * (k + 1) + 250 * (k * (k + 1))
  | 0, i => by simp [cumulativeDelay]
  | k + 1, i => by
    rw [cumulativeDelay, cumulativeDelay_succ k (i + 1)]
    ring

theorem revealWelcome_wellFormed : ∀ (msgs : List JSValue), (∀ m ∈ msgs, wellFormed m = true) →
    ∃ els, List.Forall₂ RendersWelcome msgs els ∧ (∀ el ∈ els, el.className = "message bot") ∧
      ∀ i p, revealWelcome i msgs p =
        (revealed els (fun k => p.timer + cumulativeDelay i (k + 1))
          (cumulativeDelay i msgs.length) p, none)
  | [], _ => ⟨[], List.Forall₂.nil, by simp,
      fun i p => by simp [revealWelcome, revealed, cumulativeDelay]⟩
  | msg :: rest, h => by
    obtain ⟨el, hel, hcls, hitem⟩ := revealWelcomeItem_wellFormed (h msg (List.mem_cons_self _ _))
    obtain ⟨els, hels, hclss, hrest⟩ :=
      revealWelcome_wellFormed rest fun m hm => h m (List.mem_cons_of_mem _ hm)
    refine ⟨el :: els, List.Forall₂.cons hel hels, ?_, fun i p => ?_⟩
    · intro x hx
      rcases List.mem_cons.mp hx with hx | hx
      · exact hx ▸ hcls
      · exact hclss x hx
    · simp only [revealWelcome, hitem, hrest]
      simp only [revealed, sleep, appendChild, scrollToBottom, List.length_cons,
        List.range_succ_eq_map, List.map_cons, List.map_map, List.append_assoc,
        List.singleton_append, Prod.mk.injEq, and_true, Page.mk.injEq, true_and]
      refine ⟨?_, by simp only [cumulativeDelay]; omega, by omega⟩
      have hfun : (fun k => p.timer + 500 * i + cumulativeDelay (i + 1) (k + 1)) =
          ((fun k => p.timer + cumulativeDelay i (k + 1)) ∘ Nat.succ) := by
        funext k
        simp only [Function.comp, Nat.succ_eq_add_one, cumulativeDelay]
        omega
      rw [hfun]
      simp [cumulativeDelay]

theorem revealReplyItem_ok {msg : JSValue} {p p' : Page} (h : revealReplyItem msg p = .ok p') :
    ∃ el, p' = scrollToBottom (appendChild el p) := by
  unfold revealReplyItem at h
  split at h
  · simp at h
  · split at h
    · simp at h
    · split at h
      · simp at h
      · rw [addBotMessage_eq] at h
        split at h
        · simp at h
        · rename_i el _
          simp only [Except.ok.injEq] at h
          exact ⟨el, h.symm⟩

/-- What neither an awaited timer nor an appended message changes is not changed by the
chat reveal loop, whether it runs to the end or throws. -/
theorem revealReplies_frame {β : Type} (f : Page → β) (hs : ∀ ms p, f (sleep ms p) = f p)
    (ha : ∀ el p, f (scrollToBottom (appendChild el p)) = f p) :
    ∀ (msgs : List JSValue) (p : Page), f (revealReplies msgs p).1 = f p
  | [], _ => rfl
  | msg :: rest, p => by
    unfold revealReplies
    cases h : revealReplyItem msg (sleep 400 p) with
    | error e => exact hs 400 p
    | ok p' =>
      obtain ⟨el, hp'⟩ := revealReplyItem_ok h
      simp only []
      rw [revealReplies_frame f hs ha rest p', hp', ha, hs]

theorem addUserMessage_str (m : String) :
    ∃ el, createMessageElement "user" (.str m) .undefined .undefined = .ok el ∧
      el.className = "message user" ∧ el.innerHTML = formatMessageContent m ∧
      ∀ p, addUserMessage (.str m) p = .ok (scrollToBottom (appendChild el p)) := by
  obtain ⟨el, hel, hcls, hhtml⟩ := createMessageElement_str "user" m .undefined (rfl : linkPrintable .undefined = true)
  exact ⟨el, hel, hcls, hhtml, fun p => by simp only [addUserMessage, hel]⟩

theorem sendMessage_of_nonempty (r : FetchResult ChatData) (p : Page)
    (h : trim p.userInputValue ≠ "") :
    ∃ el, createMessageElement "user" (.str (trim p.userInputValue)) .undefined .undefined =
        .ok el ∧
      sendMessage r p = sendMessageGuarded r (trim p.userInputValue)
        (prepareSend (scrollToBottom (appendChild el p))) := by
  obtain ⟨el, hel, _, _, hadd⟩ := addUserMessage_str (trim p.userInputValue)
  refine ⟨el, hel, ?_⟩
  simp only [sendMessage, h, if_false, hadd]

theorem sendMessageCatch_eq :
    ∃ el, createMessageElement "bot" (.str errorApology) (.str "text") .null = .ok el ∧
      ∀ e p, sendMessageCatch e p =
        (scrollToBottom (appendChild el (hideTyping (consoleError "Error:" e p))), none) := by
  obtain ⟨el, hel, _, _⟩ := createMessageElement_str "bot" errorApology (.str "text") (rfl : linkPrintable .null = true)
  have hel' : createMessageElement "bot" (.str errorApology) .undefined .undefined = .ok el := by
    rw [← hel]; simp only [createMessageElement, orDefault]
  exact ⟨el, hel, fun e p => by simp only [sendMessageCatch, addBotMessage_eq, hel']⟩

theorem sendMessageTry_none_hidden {r : FetchResult ChatData} {m : String} {p p' : Page}
    (h : sendMessageTry r m p = (p', none)) : p'.typingHidden = true := by
  unfold sendMessageTry at h
  split at h
  any_goals simp at h
  split at h
  · simp at h
  · rename_i msgs _
    have hf := revealReplies_frame Page.typingHidden (fun _ _ => rfl) (fun _ _ => rfl) msgs
    have hh := congrArg (fun o : Outcome => o.1.typingHidden) h
    simp only [hf, hideTyping] at hh
    exact hh.symm


theorem sendMessageGuarded_of_none {r : FetchResult ChatData} {m : String} {p p' : Page}
    (h : sendMessageTry r m p = (p', none)) :
    sendMessageGuarded r m p = (sendMessageFinally p', none) := by
  simp only [sendMessageGuarded, h]

theorem sendMessageGuarded_of_some {r : FetchResult ChatData} {m : String} {p p' : Page}
    {e : JSError} (h : sendMessageTry r m p = (p', some e)) :
    sendMessageGuarded r m p =
      (sendMessageFinally (sendMessageCatch e p').1, (sendMessageCatch e p').2) := by
  simp only [sendMessageGuarded, h]

theorem sendMessageGuarded_proj {β : Type} (f : Page → β)
    (hc : ∀ el e p, f (scrollToBottom (appendChild el (hideTyping (consoleError "Error:" e p)))) = f p)
    (hfin : ∀ p, f (sendMessageFinally p) = f p)
    (r : FetchResult ChatData) (m : String) (p : Page) :
    f (sendMessageGuarded r m p).1 = f (sendMessageTry r m p).1 := by
  obtain ⟨el, _, hcatch⟩ := sendMessageCatch_eq
  rcases h : sendMessageTry r m p with ⟨p', _ | e⟩
  · rw [sendMessageGuarded_of_none h, hfin]
  · rw [sendMessageGuarded_of_some h, hcatch, hfin, hc]

theorem sendMessageGuarded_settled (r : FetchResult ChatData) (m : String) (p : Page) :
    (sendMessageGuarded r m p).1.userInputDisabled = false ∧
    (sendMessageGuarded r m p).1.sendBtnDisabled = false ∧
    (sendMessageGuarded r m p).1.typingHidden = true ∧
    (sendMessageGuarded r m p).1.userInputFocused = true := by
  obtain ⟨el, _, hcatch⟩ := sendMessageCatch_eq
  rcases h : sendMessageTry r m p with ⟨p', _ | e⟩
  · rw [sendMessageGuarded_of_none h]
    have hh : p'.typingHidden = true := sendMessageTry_none_hidden h
    exact ⟨rfl, rfl, hh, rfl⟩
  · rw [sendMessageGuarded_of_some h, hcatch]
    exact ⟨rfl, rfl, rfl, rfl⟩

theorem sendMessageTry_of_failure {r : FetchResult ChatData} (hf : isFailure r = true)
    (m : String) (p : Page) :
    ∃ e, sendMessageTry r m p =
      ({ p with requests := p.requests ++ [chatFetch m p.sessionId] }, some e) := by
  rcases r with _ | ⟨ok, _ | _ | data⟩
  · exact ⟨_, rfl⟩
  · cases ok <;> exact ⟨_, rfl⟩
  · cases ok <;> exact ⟨_, rfl⟩
  · cases ok
    · exact ⟨_, rfl⟩
    · simp [isFailure] at hf

/-! ## The chat flow: properties -/

/-- C1: whatever the chat request settles to (a rejected fetch, a body that does not decode,
a failure status with any body, a success status with any list of replies, also one whose
reveal throws part-way), a submission with a non-empty trimmed input ends with the input box
enabled, the send button enabled, the typing indicator hidden and the focus on the input
box. -/
theorem sendMessage_settles_idle (r : FetchResult ChatData) (p : Page)
    (h : trim p.userInputValue ≠ "") :
    (sendMessage r p).1.userInputDisabled = false ∧ (sendMessage r p).1.sendBtnDisabled = false ∧
    (sendMessage r p).1.typingHidden = true ∧ (sendMessage r p).1.userInputFocused = true := by
  obtain ⟨el, _, hsend⟩ := sendMessage_of_nonempty r p h
  rw [hsend]
  exact sendMessageGuarded_settled _ _ _

theorem sendMessage_settles_idle_witness :
    trim ({ blankPage with userInputValue := " hello " }).userInputValue ≠ "" ∧
    (sendMessage (.response true (.object ⟨.undefined, .str "s1", some [textItem "hi", .null]⟩))
      { blankPage with userInputValue := " hello " }).1.userInputFocused = true :=
  ⟨by decide, (sendMessage_settles_idle _ _ (by decide)).2.2.2⟩

/-- C2: for a successful response whose `bot_messages` are `M` well-formed items (the content
is a string, and the link fields of the data, where there are any, convert to strings),
`sendMessage` appends the user message and then exactly `M` bot messages, the `k`-th
carrying the content, type and data of the `k`-th item, and the `k`-th reveal happens when
400 ms times `k + 1` of timer delay have passed since the submission, so 400 ms after the
one before. -/
theorem sendMessage_reveals_replies (p : Page) (error session_id : JSValue)
    (msgs : List JSValue) (h : trim p.userInputValue ≠ "")
    (hw : ∀ m ∈ msgs, wellFormedReply m = true) :
    ∃ userEl els,
      createMessageElement "user" (.str (trim p.userInputValue)) .undefined .undefined =
        .ok userEl ∧
      List.Forall₂ RendersReply msgs els ∧ els.length = msgs.length ∧
      (∀ el ∈ els, el.className = "message bot") ∧
      (sendMessage (.response true (.object ⟨error, session_id, some msgs⟩)) p).2 = none ∧
      (sendMessage (.response true (.object ⟨error, session_id, some msgs⟩)) p).1.chatMessages =
        p.chatMessages ++ userEl :: els ∧
      (sendMessage (.response true (.object ⟨error, session_id, some msgs⟩)) p).1.appendedAt =
        p.appendedAt ++ p.timer :: (List.range msgs.length).map fun k => p.timer + 400 * (k + 1) := by
  obtain ⟨userEl, huser, hsend⟩ :=
    sendMessage_of_nonempty (.response true (.object ⟨error, session_id, some msgs⟩)) p h
  obtain ⟨els, hels, hcls, hreveal⟩ := revealReplies_wellFormed msgs hw
  refine ⟨userEl, els, huser, hels, hels.length_eq.symm, hcls, ?_, ?_, ?_⟩ <;>
    rw [hsend] <;>
    simp [sendMessageGuarded, sendMessageTry, hreveal, revealed, sendMessageFinally, prepareSend,
      showTyping, hideTyping, scrollToBottom, appendChild, hels.length_eq]

theorem sendMessage_reveals_replies_witness :
    trim ({ blankPage with userInputValue := "hello" }).userInputValue ≠ "" ∧
    (sendMessage (.response true (.object ⟨.undefined, .str "s1",
        some [textItem "**one**", downloadItem "two" "/download/a.pdf" "a.pdf"]⟩))
      { blankPage with userInputValue := "hello" }).1.appendedAt = [0, 400, 800] := by
  refine ⟨by decide, ?_⟩
  obtain ⟨_, _, _, _, _, _, _, _, h⟩ := sendMessage_reveals_replies
    { blankPage with userInputValue := "hello" } .undefined (.str "s1")
    [textItem "**one**", downloadItem "two" "/download/a.pdf" "a.pdf"] (by decide) (by decide)
  rw [h]
  decide

/-- A download item whose `download_url` is the object `{"toString": 0}` has string content
but cannot be shown: the assignment to `href` throws, so the transcript gets the user
message and the apology, and the item after it is never revealed. -/
theorem sendMessage_unprintable_link_apology :
    wellFormed (.obj [("content", .str "x"), ("type", .str "download"),
      ("data", .obj [("download_url", .obj [("toString", .num 0)])])]) = true ∧
    wellFormedReply (.obj [("content", .str "x"), ("type", .str "download"),
      ("data", .obj [("download_url", .obj [("toString", .num 0)])])]) = false ∧
    ((sendMessage (.response true (.object ⟨.undefined, .str "s1",
        some [.obj [("content", .str "x"), ("type", .str "download"),
            ("data", .obj [("download_url", .obj [("toString", .num 0)])])],
          textItem "y"]⟩))
      { blankPage with userInputValue := "hello" }).1.chatMessages.map fun el => el.innerHTML) =
      ["hello", errorApology] := by
  decide

/-- C3: when the chat send fails (the fetch rejects, the body cannot be decoded, or the status
is not a success, whatever the body says), `sendMessage` appends after the user message
exactly one bot message, whose markup is the fixed apology, and ends with the input box and
the send button enabled and the focus on the input box. -/
theorem sendMessage_failure_apology (r : FetchResult ChatData) (p : Page)
    (h : trim p.userInputValue ≠ "") (hf : isFailure r = true) :
    ∃ userEl apology,
      createMessageElement "user" (.str (trim p.userInputValue)) .undefined .undefined =
        .ok userEl ∧
      createMessageElement "bot" (.str errorApology) (.str "text") .null = .ok apology ∧
      apology.innerHTML = errorApology ∧
      (sendMessage r p).1.chatMessages = p.chatMessages ++ [userEl, apology] ∧
      (sendMessage r p).1.userInputDisabled = false ∧
      (sendMessage r p).1.sendBtnDisabled = false ∧
      (sendMessage r p).1.userInputFocused = true ∧
      (sendMessage r p).2 = none := by
  obtain ⟨userEl, huser, hsend⟩ := sendMessage_of_nonempty r p h
  obtain ⟨apology, hap, hcatch⟩ := sendMessageCatch_eq
  obtain ⟨e, htry⟩ := sendMessageTry_of_failure hf (trim p.userInputValue)
    (prepareSend (scrollToBottom (appendChild userEl p)))
  have hhtml : apology.innerHTML = errorApology := by
    obtain ⟨el, hel, _, hh⟩ := createMessageElement_str "bot" errorApology (.str "text") (rfl : linkPrintable .null = true)
    rw [hap] at hel
    cases hel
    rw [hh]
    decide
  rw [hsend, sendMessageGuarded_of_some htry, hcatch]
  exact ⟨userEl, apology, huser, hap, hhtml, by simp [sendMessageFinally, prepareSend,
      showTyping, hideTyping, scrollToBottom, appendChild, consoleError], rfl, rfl, rfl, rfl⟩

theorem sendMessage_failure_apology_witness :
    trim ({ blankPage with userInputValue := "hello" }).userInputValue ≠ "" ∧
    isFailure (.response false (.object ⟨.str "bad input", .undefined, none⟩)) = true ∧
    (sendMessage (.response false (.object ⟨.str "bad input", .undefined, none⟩))
      { blankPage with userInputValue := "hello" }).1.chatMessages.length = 2 := by
  refine ⟨by decide, rfl, ?_⟩
  obtain ⟨userEl, apology, _, _, _, h, _⟩ := sendMessage_failure_apology
    (.response false (.object ⟨.str "bad input", .undefined, none⟩))
    { blankPage with userInputValue := "hello" } (by decide) rfl
  rw [h]
  rfl

/-- C5: when the trimmed input is empty, `sendMessage` changes nothing: the transcript, the
requests issued, the input value, the counter, the typing indicator, the disabled flags and
the session id are those of the page it started from, and it completes normally. -/
theorem sendMessage_blank_noop (r : FetchResult ChatData) (p : Page)
    (h : trim p.userInputValue = "") : sendMessage r p = (p, none) := by
  simp only [sendMessage, h, if_true]

theorem sendMessage_blank_noop_witness :
    trim ({ blankPage with userInputValue := " \n\t " }).userInputValue = "" ∧
    sendMessage .rejected { blankPage with userInputValue := " \n\t " } =
      ({ blankPage with userInputValue := " \n\t " }, none) :=
  ⟨by decide, sendMessage_blank_noop _ _ (by decide)⟩


/-! ## The welcome flow: lemmas -/

theorem loadWelcomeCatch_eq :
    ∃ el, createMessageElement "bot" (.str fallbackGreeting) (.str "text") .null = .ok el ∧
      el.innerHTML = formatMessageContent fallbackGreeting ∧
      ∀ p, addBotMessage (.str fallbackGreeting) .undefined .undefined p =
        .ok (scrollToBottom (appendChild el p)) := by
  obtain ⟨el, hel, _, hh⟩ := createMessageElement_str "bot" fallbackGreeting (.str "text") (rfl : linkPrintable .null = true)
  have hel' : createMessageElement "bot" (.str fallbackGreeting) .undefined .undefined =
      .ok el := by
    rw [← hel]; simp only [createMessageElement, orDefault]
  exact ⟨el, hel, hh, fun p => by simp only [addBotMessage_eq, hel']⟩

theorem loadWelcomeTry_of_failure {r : FetchResult WelcomeData}
    (hf : isWelcomeFailure r = true) (p : Page) :
    ∃ e, loadWelcomeTry r p =
      ({ p with requests := p.requests ++ [welcomeFetch] }, some e) := by
  rcases r with _ | ⟨ok, _ | _ | data⟩
  · exact ⟨_, rfl⟩
  · exact ⟨_, rfl⟩
  · simp [isWelcomeFailure] at hf
  · simp [isWelcomeFailure] at hf

theorem loadWelcomeMessage_wellFormed (ok : Bool) (msgs : List JSValue)
    (hw : ∀ m ∈ msgs, wellFormed m = true) :
    ∃ els, List.Forall₂ RendersWelcome msgs els ∧ (∀ el ∈ els, el.className = "message bot") ∧
      ∀ p, loadWelcomeMessage (.response ok (.object ⟨some msgs⟩)) p =
        (revealed els (fun k => p.timer + 250 * (k * (k + 1)))
          (cumulativeDelay 0 msgs.length)
          { p with requests := p.requests ++ [welcomeFetch] }, none) := by
  obtain ⟨els, hels, hcls, hreveal⟩ := revealWelcome_wellFormed msgs hw
  refine ⟨els, hels, hcls, fun p => ?_⟩
  have hfun : (fun k => p.timer + cumulativeDelay 0 (k + 1)) =
      fun k => p.timer + 250 * (k * (k + 1)) := by
    funext k
    rw [cumulativeDelay_succ]
    omega
  simp only [loadWelcomeMessage, loadWelcomeTry, hreveal, hfun]

/-! ## The welcome flow: properties -/

/-- C6: for a welcome response whose `messages` are `N` well-formed items, `loadWelcomeMessage`
completes normally and appends exactly `N` bot messages, the `k`-th carrying the content and
type of the `k`-th item, nothing else, and the last of them is appended when at least
500 ms times `N - 1` of timer delay have passed. -/
theorem loadWelcomeMessage_reveals_all (ok : Bool) (p : Page) (msgs : List JSValue)
    (hw : ∀ m ∈ msgs, wellFormed m = true) :
    ∃ els times,
      List.Forall₂ RendersWelcome msgs els ∧ els.length = msgs.length ∧
      (∀ el ∈ els, el.className = "message bot") ∧
      (loadWelcomeMessage (.response ok (.object ⟨some msgs⟩)) p).2 = none ∧
      (loadWelcomeMessage (.response ok (.object ⟨some msgs⟩)) p).1.chatMessages =
        p.chatMessages ++ els ∧
      (loadWelcomeMessage (.response ok (.object ⟨some msgs⟩)) p).1.appendedAt =
        p.appendedAt ++ times ∧
      times.length = msgs.length ∧
      ∀ t, times.getLast? = some t → p.timer + 500 * (msgs.length - 1) ≤ t := by
  obtain ⟨els, hels, hcls, hload⟩ := loadWelcomeMessage_wellFormed ok msgs hw
  have hlen : els.length = msgs.length := hels.length_eq.symm
  refine ⟨els, (List.range els.length).map fun k => p.timer + 250 * (k * (k + 1)), hels, hlen,
    hcls, ?_, ?_, ?_, ?_, ?_⟩
  · rw [hload]
  · rw [hload]; rfl
  · rw [hload]; rfl
  · simp [hlen]
  · intro t ht
    rw [hlen] at ht
    cases hn : msgs.length with
    | zero => simp [hn] at ht
    | succ n =>
      rw [hn, List.range_succ, List.map_append, List.map_singleton,
        List.getLast?_append_of_ne_nil _ (by simp), List.getLast?_singleton] at ht
      simp only [Option.some.injEq] at ht
      subst ht
      simp only [Nat.add_sub_cancel]
      rcases Nat.eq_zero_or_pos n with h0 | hpos
      · subst h0; simp
      · have : 2 * n ≤ n * (n + 1) := by nlinarith
        omega

theorem loadWelcomeMessage_reveals_all_witness :
    (loadWelcomeMessage (.response true (.object ⟨some [textItem "a", textItem "b"]⟩))
      blankPage).2 = none ∧
    (loadWelcomeMessage (.response true (.object ⟨some [textItem "a", textItem "b"]⟩))
      blankPage).1.chatMessages.length = 2 := by
  obtain ⟨els, _, _, hlen, _, hdone, hchat, _⟩ := loadWelcomeMessage_reveals_all true blankPage
    [textItem "a", textItem "b"] (by decide)
  refine ⟨hdone, ?_⟩
  rw [hchat, List.length_append, hlen]
  rfl

/-- C7: when the welcome fetch fails in transport or in decoding the body,
`loadWelcomeMessage` completes normally and appends exactly one bot message: the fixed
greeting, made with type `text` and no data. -/
theorem loadWelcomeMessage_failure_fallback (r : FetchResult WelcomeData) (p : Page)
    (hf : isWelcomeFailure r = true) :
    ∃ el,
      createMessageElement "bot" (.str fallbackGreeting) (.str "text") .null = .ok el ∧
      el.innerHTML = fallbackGreeting ∧ el.contentClass = ["message-content"] ∧
      el.downloadBtn = none ∧
      (loadWelcomeMessage r p).2 = none ∧
      (loadWelcomeMessage r p).1.chatMessages = p.chatMessages ++ [el] := by
  obtain ⟨el, hel, hhtml, hadd⟩ := loadWelcomeCatch_eq
  obtain ⟨e, htry⟩ := loadWelcomeTry_of_failure hf p
  have hplain : el.contentClass = ["message-content"] ∧ el.downloadBtn = none := by
    simp [createMessageElement, orDefault, downloadLink, strictEqStr] at hel
    rw [← hel]
    exact ⟨rfl, rfl⟩
  refine ⟨el, hel, ?_, hplain.1, hplain.2, ?_, ?_⟩
  · rw [hhtml]; decide
  · simp only [loadWelcomeMessage, htry, hadd]
  · simp only [loadWelcomeMessage, htry, hadd]
    rfl

theorem loadWelcomeMessage_failure_fallback_witness :
    isWelcomeFailure (.response true .syntaxError) = true ∧
    (loadWelcomeMessage (.response true .syntaxError) blankPage).2 = none := by
  refine ⟨rfl, ?_⟩
  obtain ⟨_, _, _, _, _, h, _⟩ := loadWelcomeMessage_failure_fallback
    (.response true .syntaxError) blankPage rfl
  exact h

/-- C10, as stated, fails: with three well-formed welcome messages the third one is appended
after 1500 ms of timer delay, not after 500 ms times 2. -/
theorem loadWelcomeMessage_third_reveal_late :
    (loadWelcomeMessage (.response true (.object ⟨some [textItem "a", textItem "b", textItem "c"]⟩))
      blankPage).1.appendedAt[2]? = some 1500 ∧
    (loadWelcomeMessage (.response true (.object ⟨some [textItem "a", textItem "b", textItem "c"]⟩))
      blankPage).1.appendedAt[2]? ≠ some (blankPage.timer + 500 * 2) := by
  decide

/-- C10, amended: the welcome loop awaits 500 ms times `i` right before it appends message
`i`, one wait after the other, so for well-formed messages the timer delay between the start
of the loop and the reveal of message `i` is the sum 500 × (0 + 1 + … + i), that is 250 ms
times `i` times `i + 1`. -/
theorem loadWelcomeMessage_schedule (ok : Bool) (p : Page) (msgs : List JSValue)
    (hw : ∀ m ∈ msgs, wellFormed m = true) (i : Nat) (hi : i < msgs.length) :
    (loadWelcomeMessage (.response ok (.object ⟨some msgs⟩)) p).1.appendedAt[p.appendedAt.length + i]? =
      some (p.timer + 250 * (i * (i + 1))) := by
  obtain ⟨els, hels, _, hload⟩ := loadWelcomeMessage_wellFormed ok msgs hw
  have hlen : els.length = msgs.length := hels.length_eq.symm
  rw [hload]
  simp only [revealed]
  rw [List.getElem?_append_right (by omega)]
  simp [hlen, hi]

theorem loadWelcomeMessage_schedule_witness :
    (loadWelcomeMessage (.response true (.object ⟨some [textItem "a", textItem "b", textItem "c"]⟩))
      blankPage).1.appendedAt[blankPage.appendedAt.length + 2]? =
      some (blankPage.timer + 250 * (2 * (2 + 1))) :=
  loadWelcomeMessage_schedule true blankPage [textItem "a", textItem "b", textItem "c"]
    (by decide) 2 (by decide)


/-! ## The session id: lemmas -/

theorem sendMessageTry_requests (r : FetchResult ChatData) (m : String) (p : Page) :
    (sendMessageTry r m p).1.requests = p.requests ++ [chatFetch m p.sessionId] := by
  rcases r with _ | ⟨ok, _ | _ | data⟩
  · rfl
  · cases ok <;> rfl
  · cases ok <;> rfl
  · cases ok
    · rfl
    · simp only [sendMessageTry]
      split
      · rfl
      · rw [revealReplies_frame Page.requests (fun _ _ => rfl) (fun _ _ => rfl)]
        rfl

theorem sendMessageTry_sessionId (r : FetchResult ChatData) (m : String) (p : Page) :
    (sendMessageTry r m p).1.sessionId = (returnedSession r).getD p.sessionId := by
  rcases r with _ | ⟨ok, _ | _ | data⟩
  · rfl
  · cases ok <;> rfl
  · cases ok <;> rfl
  · cases ok
    · rfl
    · simp only [sendMessageTry]
      split
      · rfl
      · rw [revealReplies_frame Page.sessionId (fun _ _ => rfl) (fun _ _ => rfl)]
        rfl

theorem submit_blank (s : Submission) (p : Page) (h : trim s.text = "") :
    (submit s p).requests = p.requests ∧ (submit s p).sessionId = p.sessionId := by
  have hnoop : sendMessage s.outcome
      (inputEvent s.scrollHeight { p with userInputValue := s.text }) =
      (inputEvent s.scrollHeight { p with userInputValue := s.text }, none) := by
    simp only [sendMessage, inputEvent, h, if_true]
  unfold submit
  rw [hnoop]
  exact ⟨rfl, rfl⟩

theorem submit_request (s : Submission) (p : Page) (h : trim s.text ≠ "") :
    (submit s p).requests = p.requests ++ [chatFetch (trim s.text) p.sessionId] ∧
    (submit s p).sessionId = (returnedSession s.outcome).getD p.sessionId := by
  unfold submit
  obtain ⟨el, _, hsend⟩ := sendMessage_of_nonempty s.outcome
    (inputEvent s.scrollHeight { p with userInputValue := s.text }) h
  rw [hsend]
  constructor
  · rw [sendMessageGuarded_proj Page.requests (fun _ _ _ => rfl) (fun _ => rfl),
      sendMessageTry_requests]
    rfl
  · rw [sendMessageGuarded_proj Page.sessionId (fun _ _ _ => rfl) (fun _ => rfl),
      sendMessageTry_sessionId]
    rfl

theorem getLast_filterMap_cons (o : FetchResult ChatData) (l : List (FetchResult ChatData))
    (sid : JSValue) :
    (((o :: l).filterMap returnedSession).getLast?).getD sid =
      ((l.filterMap returnedSession).getLast?).getD ((returnedSession o).getD sid) := by
  cases ho : returnedSession o with
  | none => simp [List.filterMap_cons, ho]
  | some v =>
    simp only [List.filterMap_cons, ho, List.getLast?_cons, Option.getD_some]

theorem runSubmissions_sessions : ∀ (subs : List Submission) (p : Page),
    ∃ sent, (runSubmissions subs p).requests = p.requests ++ sent ∧
      sessionIdsSent sent = (List.range (issued subs).length).map (fun k =>
        some ((((issued subs).take k).filterMap returnedSession).getLast?.getD p.sessionId)) ∧
      (runSubmissions subs p).sessionId =
        (((issued subs).filterMap returnedSession).getLast?).getD p.sessionId
  | [], p => ⟨[], by simp [runSubmissions], by simp [issued, sessionIdsSent], by
      simp [runSubmissions, issued]⟩
  | s :: rest, p => by
    obtain ⟨sent, hreq, hids, hsid⟩ := runSubmissions_sessions rest (submit s p)
    by_cases h : trim s.text = ""
    · obtain ⟨h1, h2⟩ := submit_blank s p h
      have hiss : issued (s :: rest) = issued rest := by simp [issued, List.filter_cons, h]
      refine ⟨sent, ?_, ?_, ?_⟩
      · rw [runSubmissions, hreq, h1]
      · rw [hiss, hids, h2]
      · rw [runSubmissions, hiss, hsid, h2]
    · obtain ⟨h1, h2⟩ := submit_request s p h
      have hiss : issued (s :: rest) = s.outcome :: issued rest := by
        simp [issued, List.filter_cons, h]
      refine ⟨chatFetch (trim s.text) p.sessionId :: sent, ?_, ?_, ?_⟩
      · rw [runSubmissions, hreq, h1, List.append_assoc, List.singleton_append]
      · rw [hiss]
        simp only [sessionIdsSent, List.map_cons, List.length_cons, List.range_succ_eq_map,
          List.map_map, Option.map_some', List.take_zero, List.filterMap_nil,
          List.getLast?_nil, Option.getD_none, List.cons.injEq, true_and]
        have := hids
        simp only [sessionIdsSent] at this
        rw [this]
        refine ⟨rfl, ?_⟩
        apply List.map_congr_left
        intro k _
        simp only [Function.comp, Nat.succ_eq_add_one, List.take_succ_cons, h2]
        rw [getLast_filterMap_cons]
      · rw [runSubmissions, hiss, hsid, h2, getLast_filterMap_cons]

/-! ## The session id: property -/

/-- C4: in every sequence of submissions, started with the session id `null`, the
`session_id` of each chat request body is the `session_id` of the most recent earlier chat
response that was a success (`null` when there was none), and the session id stored at the
end is that of the most recent successful response of all; a failed request changes
neither. -/
theorem session_id_round_trip (subs : List Submission) (p : Page) (h : p.sessionId = .null) :
    sessionIdsSent ((runSubmissions subs p).requests.drop p.requests.length) =
      (List.range (issued subs).length).map (fun k =>
        some (mostRecentSession ((issued subs).take k))) ∧
    (runSubmissions subs p).sessionId = mostRecentSession (issued subs) := by
  obtain ⟨sent, hreq, hids, hsid⟩ := runSubmissions_sessions subs p
  rw [hreq, List.drop_left, hids, hsid, h]
  exact ⟨rfl, rfl⟩

theorem session_id_round_trip_witness :
    blankPage.sessionId = .null ∧
    sessionIdsSent ((runSubmissions
      [⟨"one", 24, .response true (.object ⟨.undefined, .str "s1", some [textItem "hi"]⟩)⟩,
       ⟨"two", 24, .response false (.object ⟨.str "bad input", .str "s2", none⟩)⟩,
       ⟨"  ", 24, .rejected⟩,
       ⟨"three", 24, .rejected⟩] blankPage).requests.drop blankPage.requests.length) =
      [some .null, some (.str "s1"), some (.str "s1")] := by
  refine ⟨rfl, ?_⟩
  have h := (session_id_round_trip
      [⟨"one", 24, .response true (.object ⟨.undefined, .str "s1", some [textItem "hi"]⟩)⟩,
       ⟨"two", 24, .response false (.object ⟨.str "bad input", .str "s2", none⟩)⟩,
       ⟨"  ", 24, .rejected⟩,
       ⟨"three", 24, .rejected⟩] blankPage rfl).1
  rw [h]
  have hiss : issued
      [⟨"one", 24, .response true (.object ⟨.undefined, .str "s1", some [textItem "hi"]⟩)⟩,
       ⟨"two", 24, .response false (.object ⟨.str "bad input", .str "s2", none⟩)⟩,
       ⟨"  ", 24, .rejected⟩,
       ⟨"three", 24, .rejected⟩] =
      [.response true (.object ⟨.undefined, .str "s1", some [textItem "hi"]⟩),
       .response false (.object ⟨.str "bad input", .str "s2", none⟩), .rejected] := by
    rfl
  rw [hiss]
  rfl

end ChatWidget
